import Mathlib

/-!
Shallow embedding of `src/src/account/mod.rs` of `subitlab/sms3-backend`:
the account state machine (`Account`), its verification / login / logout
transitions, the error taxonomy with its HTTP response codes, and the
account manager's refresh sweep.  Components implemented in files that are
not part of `src/` (`verify::Context`, `verify::Tokens`, the `sha256`
digest and the `DefaultHasher`) are modelled from the spec, as marked on
each definition.  Timestamps are seconds as `Int`; machine integers are
`Nat` with an explicit modulus where the width matters.
-/

namespace Sms3

/-- Modelled from the spec: the stable 64-bit identity hash
(`DefaultHasher` over the email string; the hasher lives in the standard
library, not in `src/`).  Any fixed deterministic 64-bit string hash is a
faithful model; the claims only relate `id()` to this one function. -/
def hash64 (s : String) : Nat :=
  s.data.foldl (fun h c => (h * 131 + c.toNat + 1) % 2 ^ 64) 5381

/-- Modelled from the spec: the `sha256::digest` password hash (external
crate, not in `src/`).  Any fixed deterministic string-to-string function
is a faithful model for the claims, which only compare digests. -/
def digest (s : String) : String :=
  toString (s.data.foldl (fun h c => (h * 257 + c.toNat + 1) % 2 ^ 256) 7)

/-- Modelled from the spec: `lettre::Address::domain` — the domain part of
the email address (the text after the `@`). -/
def emailDomain (s : String) : String :=
  String.mk ((s.data.reverse.takeWhile (fun c => c ≠ '@')).reverse)

/-- Modelled from the spec: `verify::Context` (in `verify.rs`, not in
`src/`): an email, a one-time numeric code, and an expiry instant. -/
structure VerifyContext where
  email : String
  code : Nat
  expire_time : Int
  deriving Repr, DecidableEq

/-- Modelled from the spec: `Context::is_expired` — true iff `now` has
reached the expiry instant. -/
def VerifyContext.is_expired (c : VerifyContext) (now : Int) : Bool :=
  c.expire_time ≤ now

/-- Modelled from the spec: one issued bearer token of `verify::Tokens`:
the opaque token string with its expiry (`none` = never expires). -/
structure TokenRecord where
  token : String
  expire : Option Int
  deriving Repr, DecidableEq

/-- Modelled from the spec: `verify::Tokens` — a mapping from opaque token
string to expiry metadata, keyed by the token string. -/
structure Tokens where
  records : List TokenRecord
  deriving Repr, DecidableEq

/-- `Tokens::new()`: the fresh empty token set installed on activation. -/
def Tokens.new : Tokens := ⟨[]⟩

/-- Modelled from the spec: `Tokens::new_token(owner_id, expiration_days)`
generates a random opaque string — supplied here as the `fresh` oracle
argument — records expiry `now + days` (or never when the policy is `0`),
inserts it under its key, and returns it. -/
def Tokens.new_token (t : Tokens) (fresh : String) (expiration_days : Nat)
    (now : Int) : String × Tokens :=
  (fresh,
    ⟨{ token := fresh,
       expire := if expiration_days = 0 then none
                 else some (now + expiration_days * 86400) } ::
      t.records.filter (fun r => r.token ≠ fresh)⟩)

/-- Modelled from the spec: `Tokens::remove(token) -> bool` deletes the
token if present and reports whether it was found. -/
def Tokens.remove (t : Tokens) (token : String) : Bool × Tokens :=
  (t.records.any (fun r => r.token = token),
    ⟨t.records.filter (fun r => r.token ≠ token)⟩)

/-- Modelled from the spec: `Tokens::refresh(now)` sweeps and deletes every
token whose expiry has passed; never-expiring tokens are untouched. -/
def Tokens.refresh (t : Tokens) (now : Int) : Tokens :=
  ⟨t.records.filter (fun r =>
    match r.expire with
    | none => true
    | some e => ¬ e ≤ now)⟩

/-- `enum Error` of `mod.rs` (the `MailSend` payload, an SMTP error, is
dropped: no claim inspects it). -/
inductive Error where
  | VerificationCode
  | UserUnverified
  | UserRegistered
  | PasswordIncorrect
  | TokenIncorrect
  | EmailDomainNotInSchool
  | DateOutOfRange
  | MailSend
  | PermissionDenied
  | Conflict
  deriving Repr, DecidableEq

/-- `Error::response_code` of `mod.rs`: `MailSend` ↦ 500 INTERNAL_SERVER_ERROR,
`Conflict` ↦ 409 CONFLICT, every other variant ↦ 403 FORBIDDEN. -/
def Error.response_code : Error → Nat
  | .MailSend => 500
  | .Conflict => 409
  | _ => 403

/-- `enum ManagerError` of `mod.rs`. -/
inductive ManagerError where
  | Account (id : Nat) (e : Error)
  | NotFound (id : Nat)
  deriving Repr, DecidableEq

/-- `ManagerError::response_code` of `mod.rs`: delegate for `Account`,
404 NOT_FOUND for `NotFound`. -/
def ManagerError.response_code : ManagerError → Nat
  | .Account _ e => e.response_code
  | .NotFound _ => 404

/-- `struct UserAttributes` of `mod.rs`.  `House` and `Permission` come
from `sms3_shared` (not in `src/`) and are modelled as opaque numerals;
timestamps are seconds. -/
structure UserAttributes where
  email : String
  name : String
  school_id : Nat
  phone : Nat
  house : Option Nat
  organization : Option String
  permissions : List Nat
  registration_time : Int
  password_sha : String
  token_expiration_time : Nat
  deriving Repr, DecidableEq

/-- `enum UserVerifyVariant` of `mod.rs`. -/
inductive UserVerifyVariant where
  | none
  | forgetPassword (cxt : VerifyContext)
  deriving Repr, DecidableEq

/-- `enum Account` of `mod.rs`: an unverified registration context, or a
verified user with identity, attributes, token set and optional secondary
verification state. -/
inductive Account where
  | Unverified (cxt : VerifyContext)
  | Verified (id : Nat) (attributes : UserAttributes) (tokens : Tokens)
      (verify : UserVerifyVariant)
  deriving Repr, DecidableEq

/-- `enum AccountVerifyVariant` of `mod.rs`. -/
inductive AccountVerifyVariant where
  | Activate (attributes : UserAttributes)
  | ResetPassword (password : String)

/-- The fixed institutional domain allowlist of `Account::new`. -/
def DOMAINS : List String := ["i.pkuschool.edu.cn", "pkuschool.edu.cn"]

/-- Models `rand::thread_rng().gen_range(100000..999999)`: the half-open
range draw, as a function of the raw random value `r`.  Every result lies
in `[100000, 999998]` and every such value is attained by some `r`. -/
def gen_range_code (r : Nat) : Nat := 100000 + r % 899999

/-- `Account::new(email)` of `mod.rs`: reject an email whose domain is not
in the allowlist with `EmailDomainNotInSchool`; otherwise build the
unverified account around a fresh `verify::Context` whose code is the
random draw and whose expiry is 15 minutes (900 s) from now.  The random
value `r` and the clock `now` are explicit oracle arguments. -/
def Account.new (email : String) (r : Nat) (now : Int) :
    Except Error Account :=
  if emailDomain email ∈ DOMAINS then
    .ok (.Unverified
      { email := email
        code := gen_range_code r
        expire_time := now + 900 })
  else
    .error .EmailDomainNotInSchool

/-- `Account::verify(verify_code, variant)` of `mod.rs`, with the mutation
made explicit: the result pairs the returned `Result<(), Error>` with the
post-state of the account (unchanged on every error path). -/
def Account.verify (self : Account) (verify_code : Nat)
    (variant : AccountVerifyVariant) : Except Error Unit × Account :=
  match variant with
  | .Activate attributes =>
    match self with
    | .Unverified cxt =>
      if cxt.code ≠ verify_code then
        (.error .VerificationCode, .Unverified cxt)
      else
        (.ok (),
          .Verified (hash64 attributes.email) attributes Tokens.new
            UserVerifyVariant.none)
    | .Verified id attributes tokens verify =>
      (.error .UserRegistered, .Verified id attributes tokens verify)
  | .ResetPassword password =>
    match self with
    | .Verified id attributes tokens verify =>
      match verify with
      | .none =>
        (.error .PermissionDenied,
          .Verified id attributes tokens UserVerifyVariant.none)
      | .forgetPassword cxt =>
        if cxt.code ≠ verify_code then
          (.error .VerificationCode,
            .Verified id attributes tokens (.forgetPassword cxt))
        else
          (.ok (),
            .Verified id { attributes with password_sha := digest password }
              tokens UserVerifyVariant.none)
    | .Unverified cxt => (.error .UserUnverified, .Unverified cxt)

/-- `Account::id()` of `mod.rs`: hash of the registration email while
unverified, the stored id once verified. -/
def Account.id : Account → Nat
  | .Unverified cxt => hash64 cxt.email
  | .Verified id _ _ _ => id

/-- `Account::email()` of `mod.rs`. -/
def Account.email : Account → String
  | .Unverified cxt => cxt.email
  | .Verified _ attributes _ _ => attributes.email

/-- `struct UserMetadata` (from `sms3_shared`, fields as read by
`Account::metadata`). -/
structure UserMetadata where
  email : String
  name : String
  school_id : Nat
  phone : Nat
  house : Option Nat
  organization : Option String
  deriving Repr, DecidableEq

/-- `Account::metadata()` of `mod.rs`: only a verified account has
metadata; unverified fails `UserUnverified`. -/
def Account.metadata : Account → Except Error UserMetadata
  | .Unverified _ => .error .UserUnverified
  | .Verified _ attributes _ _ =>
    .ok { email := attributes.email, name := attributes.name,
          school_id := attributes.school_id, phone := attributes.phone,
          house := attributes.house,
          organization := attributes.organization }

/-- `Account::permissions()` of `mod.rs`: empty for unverified. -/
def Account.permissions : Account → List Nat
  | .Unverified _ => []
  | .Verified _ attributes _ _ => attributes.permissions

/-- `Account::login(password)` of `mod.rs`, mutation made explicit.  The
freshly generated random token string is the `fresh` oracle argument and
`now` the clock for the token's expiry metadata. -/
def Account.login (self : Account) (password : String) (fresh : String)
    (now : Int) : Except Error String × Account :=
  match self with
  | .Unverified cxt => (.error .UserUnverified, .Unverified cxt)
  | .Verified id attributes tokens verify =>
    if digest password = attributes.password_sha then
      let p := tokens.new_token fresh attributes.token_expiration_time now
      (.ok p.1, .Verified id attributes p.2 verify)
    else
      (.error .PasswordIncorrect, .Verified id attributes tokens verify)

/-- `Account::logout(token)` of `mod.rs`, mutation made explicit. -/
def Account.logout (self : Account) (token : String) :
    Except Error Unit × Account :=
  match self with
  | .Unverified cxt => (.error .UserUnverified, .Unverified cxt)
  | .Verified id attributes tokens verify =>
    let p := tokens.remove token
    if p.1 then (.ok (), .Verified id attributes p.2 verify)
    else (.error .TokenIncorrect, .Verified id attributes tokens verify)

/-- The state of `AccountManager` of `mod.rs` (locks erased): the ordered
account vector and the id → position index cache, the latter as an
association list in scan order. -/
structure AccountManager where
  accounts : List Account
  index : List (Nat × Nat)
  deriving Repr, DecidableEq

/-- `AccountManager::update_index` of `mod.rs`: clear the cache and insert
`(account.id(), position)` for every account in order. -/
def AccountManager.update_index (m : AccountManager) : AccountManager :=
  { m with index := m.accounts.enum.map (fun p => (p.2.id, p.1)) }

/-- The first loop of `refresh_all`: collect, in ascending order, the
positions of the unverified accounts whose context has expired (`j` is the
running `enumerate` counter). -/
def collectExpired (now : Int) : List Account → Nat → List Nat
  | [], _ => []
  | a :: l, j =>
    match a with
    | .Unverified cxt =>
      if cxt.is_expired now then j :: collectExpired now l (j + 1)
      else collectExpired now l (j + 1)
    | .Verified _ _ _ _ => collectExpired now l (j + 1)

/-- The removal loop of `refresh_all`: for the `k`-th entry `i` of the
removal list (in order), `w.remove(i - k)` — `List.eraseIdx` at the
position offset by the number already removed.  `k` is the running
`enumerate` counter. -/
def batchRemoveAux {α : Type} : List α → List Nat → Nat → List α
  | w, [], _ => w
  | w, i :: rest, k => batchRemoveAux (w.eraseIdx (i - k)) rest (k + 1)

/-- Reference semantics of a batch removal: keep exactly the elements
whose absolute position (the element's index plus the base `j`) is not in
the removal list `rm`. -/
def dropAbs {α : Type} : List α → List Nat → Nat → List α
  | [], _, _ => []
  | a :: l, rm, j =>
    if j ∈ rm then dropAbs l rm (j + 1) else a :: dropAbs l rm (j + 1)

/-- The predicate of the first `refresh_all` sweep: an unverified account
whose verification context has expired. -/
def isExpiredUnverified (now : Int) : Account → Bool
  | .Unverified cxt => cxt.is_expired now
  | .Verified _ _ _ _ => false

/-- The second loop of `refresh_all`, per account: a verified account gets
its token set swept and an expired `ForgetPassword` verify-state reset to
`None`; an unverified account is untouched. -/
def refreshVerified (now : Int) : Account → Account
  | .Unverified cxt => .Unverified cxt
  | .Verified id attributes tokens verify =>
    .Verified id attributes (tokens.refresh now)
      (match verify with
       | .none => UserVerifyVariant.none
       | .forgetPassword cxt =>
         if cxt.is_expired now then UserVerifyVariant.none
         else .forgetPassword cxt)

/-- `AccountManager::refresh_all` of `mod.rs`: collect the expired
unverified positions, remove them with the offset arithmetic, rebuild the
index once iff any were removed, then sweep every account's tokens and
reset-state. -/
def AccountManager.refresh_all (m : AccountManager) (now : Int) :
    AccountManager :=
  let rm_list := collectExpired now m.accounts 0
  let m1 : AccountManager :=
    { m with accounts := batchRemoveAux m.accounts rm_list 0 }
  let m2 := if rm_list.isEmpty then m1 else m1.update_index
  { m2 with accounts := m2.accounts.map (refreshVerified now) }

instance {ε β : Type} [DecidableEq ε] [DecidableEq β] :
    DecidableEq (Except ε β) := fun a b =>
  match a, b with
  | .ok x, .ok y =>
    if h : x = y then isTrue (by rw [h])
    else isFalse (fun he => h (by cases he; rfl))
  | .error x, .error y =>
    if h : x = y then isTrue (by rw [h])
    else isFalse (fun he => h (by cases he; rfl))
  | .ok _, .error _ => isFalse (fun he => Except.noConfusion he)
  | .error _, .ok _ => isFalse (fun he => Except.noConfusion he)

/-- Whether an account is in the `Verified` variant. -/
def Account.isVerified : Account → Bool
  | .Unverified _ => false
  | .Verified _ _ _ _ => true

/-- Whether an `Except` result is `ok`. -/
def exceptOk {ε β : Type} : Except ε β → Bool
  | .ok _ => true
  | .error _ => false

/-- The operations of the `Account` state machine, for the transition
claims: the two `verify` variants, `login`, `logout`, and the read-only
accessors `metadata` and `permissions`. -/
inductive AccountOp where
  | activate (code : Nat) (attrs : UserAttributes)
  | resetPassword (code : Nat) (password : String)
  | accountLogin (password : String) (fresh : String) (now : Int)
  | accountLogout (token : String)
  | readMetadata
  | readPermissions

/-- The post-state of an account after an operation.  The read-only
accessors take `&self` in the source and cannot replace the account, so
their post-state is the account itself. -/
def applyOp (a : Account) : AccountOp → Account
  | .activate c attrs => (a.verify c (.Activate attrs)).2
  | .resetPassword c pw => (a.verify c (.ResetPassword pw)).2
  | .accountLogin pw fresh now => (a.login pw fresh now).2
  | .accountLogout tok => (a.logout tok).2
  | .readMetadata => a
  | .readPermissions => a

/-- Whether an operation's returned `Result` is `Ok`. -/
def opSucceeds (a : Account) : AccountOp → Bool
  | .activate c attrs => exceptOk (a.verify c (.Activate attrs)).1
  | .resetPassword c pw => exceptOk (a.verify c (.ResetPassword pw)).1
  | .accountLogin pw fresh now => exceptOk (a.login pw fresh now).1
  | .accountLogout tok => exceptOk (a.logout tok).1
  | .readMetadata => exceptOk a.metadata
  | .readPermissions => true

/-! ### Concrete fixtures for witnesses -/

/-- A sample attribute record for an institutional user. -/
def sampleAttrs : UserAttributes :=
  { email := "a@pkuschool.edu.cn", name := "n", school_id := 1, phone := 2
    house := none, organization := none, permissions := []
    registration_time := 0, password_sha := digest "pw"
    token_expiration_time := 0 }

/-- A sample attribute record with a different email. -/
def sampleAttrsB : UserAttributes :=
  { sampleAttrs with email := "b@i.pkuschool.edu.cn" }

/-- A sample verification context. -/
def sampleCxt : VerifyContext :=
  { email := "a@pkuschool.edu.cn", code := 123456, expire_time := 900 }

/-- A sample verified account (for the email of `sampleAttrsB`). -/
def sampleVerified : Account :=
  .Verified (hash64 "b@i.pkuschool.edu.cn") sampleAttrsB Tokens.new
    UserVerifyVariant.none

/-- A sample manager holding one fresh unverified account and one verified
account, with its index in scan order. -/
def sampleManager : AccountManager :=
  { accounts := [.Unverified sampleCxt, sampleVerified]
    index := [(hash64 "a@pkuschool.edu.cn", 0),
              (hash64 "b@i.pkuschool.edu.cn", 1)] }

/-! ## Helper lemmas -/

theorem eraseIdx_append_mid {α : Type} (pre l : List α) (a : α) :
    (pre ++ a :: l).eraseIdx pre.length = pre ++ l := by
  induction pre with
  | nil => rfl
  | cons b pre ih => simpa [List.eraseIdx] using ih

theorem dropAbs_nil_rm {α : Type} :
    ∀ (l : List α) (j : Nat), dropAbs l [] j = l := by
  intro l
  induction l with
  | nil => intro j; rfl
  | cons a l ih => intro j; simp [dropAbs, ih]

theorem dropAbs_cons_gt {α : Type} :
    ∀ (l : List α) (rm : List Nat) (i j : Nat), i < j →
      dropAbs l (i :: rm) j = dropAbs l rm j := by
  intro l
  induction l with
  | nil => intros; rfl
  | cons a l ih =>
    intro rm i j hij
    have hne : ¬ j = i := by omega
    by_cases h : j ∈ rm
    · simp [dropAbs, List.mem_cons, hne, h, ih rm i (j + 1) (by omega)]
    · simp [dropAbs, List.mem_cons, hne, h, ih rm i (j + 1) (by omega)]

theorem batchRemoveAux_eq_dropAbs {α : Type} :
    ∀ (l pre : List α) (k : Nat) (rm : List Nat),
      rm.Pairwise (· < ·) →
      (∀ i ∈ rm, pre.length + k ≤ i ∧ i - k < pre.length + l.length) →
      batchRemoveAux (pre ++ l) rm k = pre ++ dropAbs l rm (pre.length + k) := by
  intro l
  induction l with
  | nil =>
    intro pre k rm hp hb
    match rm with
    | [] => simp [batchRemoveAux, dropAbs]
    | i :: rest =>
      exfalso
      obtain ⟨h1, h2⟩ := hb i (by simp)
      simp at h2
      omega
  | cons a l ih =>
    intro pre k rm hp hb
    match rm with
    | [] => simp [batchRemoveAux, dropAbs_nil_rm]
    | i :: rest =>
      obtain ⟨hi1, hi2⟩ := hb i (by simp)
      obtain ⟨hhd, htl⟩ := List.pairwise_cons.mp hp
      rcases Nat.eq_or_lt_of_le hi1 with heq | hlt
      · -- the head of the removal list is the current head position
        show batchRemoveAux ((pre ++ a :: l).eraseIdx (i - k)) rest (k + 1) = _
        have hik : i - k = pre.length := by omega
        rw [hik, eraseIdx_append_mid]
        have hrest : ∀ j ∈ rest, pre.length + (k + 1) ≤ j ∧
            j - (k + 1) < pre.length + l.length := by
          intro j hj
          have hij : i < j := hhd j hj
          have hjb := hb j (List.mem_cons_of_mem _ hj)
          simp at hjb
          omega
        rw [ih pre (k + 1) rest htl hrest]
        have hmem : pre.length + k ∈ i :: rest := by
          rw [heq]; exact List.mem_cons_self _ _
        have hR : dropAbs (a :: l) (i :: rest) (pre.length + k)
            = dropAbs l (i :: rest) (pre.length + k + 1) := by
          simp [dropAbs, hmem]
        rw [hR, dropAbs_cons_gt l rest i (pre.length + k + 1) (by omega)]
        have : pre.length + (k + 1) = pre.length + k + 1 := by omega
        rw [this]
      · -- the current head position is kept
        have hnm : pre.length + k ∉ i :: rest := by
          intro hmem
          rcases List.mem_cons.mp hmem with h | h
          · omega
          · exact absurd (hhd _ h) (by omega)
        have hR : dropAbs (a :: l) (i :: rest) (pre.length + k)
            = a :: dropAbs l (i :: rest) (pre.length + k + 1) := by
          simp [dropAbs, hnm]
        rw [hR]
        have hb' : ∀ j ∈ i :: rest, (pre ++ [a]).length + k ≤ j ∧
            j - k < (pre ++ [a]).length + l.length := by
          intro j hj
          have hjk : pre.length + k < j := by
            rcases List.mem_cons.mp hj with h | h
            · omega
            · have := hhd _ h; omega
          have hjb := hb j hj
          simp at hjb ⊢
          omega
        have hmain := ih (pre ++ [a]) k (i :: rest) hp hb'
        rw [List.append_assoc] at hmain
        simp only [List.singleton_append] at hmain
        rw [hmain]
        simp only [List.append_assoc, List.singleton_append,
          List.length_append, List.length_cons, List.length_nil]
        have : pre.length + 1 + k = pre.length + k + 1 := by omega
        rw [this]

theorem batchRemoveAux_collectExpired (now : Int) :
    ∀ (l pre : List Account) (k : Nat),
      batchRemoveAux (pre ++ l) (collectExpired now l (pre.length + k)) k
        = pre ++ l.filter (fun a => ! isExpiredUnverified now a) := by
  intro l
  induction l with
  | nil => intro pre k; simp [collectExpired, batchRemoveAux]
  | cons a l ih =>
    intro pre k
    cases a with
    | Unverified cxt =>
      cases hE : cxt.is_expired now with
      | true =>
        simp only [collectExpired, hE, if_pos]
        show batchRemoveAux ((pre ++ _ :: l).eraseIdx (pre.length + k - k))
          (collectExpired now l (pre.length + k + 1)) (k + 1) = _
        have h1 : pre.length + k - k = pre.length := by omega
        rw [h1, eraseIdx_append_mid]
        have h2 : pre.length + k + 1 = pre.length + (k + 1) := by omega
        rw [h2, ih pre (k + 1)]
        simp [List.filter_cons, isExpiredUnverified, hE]
      | false =>
        simp only [collectExpired, hE, Bool.false_eq_true, if_neg,
          not_false_iff]
        have h2 : pre.length + k + 1
            = (pre ++ [Account.Unverified cxt]).length + k := by
          simp; omega
        rw [h2,
          show pre ++ Account.Unverified cxt :: l
              = (pre ++ [Account.Unverified cxt]) ++ l by simp,
          ih (pre ++ [Account.Unverified cxt]) k]
        simp [List.filter_cons, isExpiredUnverified, hE]
    | Verified id attrs toks vf =>
      simp only [collectExpired]
      have h2 : pre.length + k + 1
          = (pre ++ [Account.Verified id attrs toks vf]).length + k := by
        simp; omega
      rw [h2,
        show pre ++ Account.Verified id attrs toks vf :: l
            = (pre ++ [Account.Verified id attrs toks vf]) ++ l by simp,
        ih (pre ++ [Account.Verified id attrs toks vf]) k]
      simp [List.filter_cons, isExpiredUnverified]

theorem refresh_all_accounts_eq (m : AccountManager) (now : Int) :
    (m.refresh_all now).accounts
      = (m.accounts.filter (fun a => ! isExpiredUnverified now a)).map
          (refreshVerified now) := by
  have h := batchRemoveAux_collectExpired now m.accounts [] 0
  simp only [List.nil_append, List.length_nil, Nat.zero_add] at h
  unfold AccountManager.refresh_all
  by_cases hE : (collectExpired now m.accounts 0).isEmpty
  · simp [hE, AccountManager.update_index, h]
  · simp [hE, AccountManager.update_index, h]

theorem refresh_all_index_eq (m : AccountManager) (now : Int) :
    (m.refresh_all now).index
      = if (collectExpired now m.accounts 0).isEmpty then m.index
        else ((m.accounts.filter (fun a => ! isExpiredUnverified now a)).enum.map
          (fun p => (p.2.id, p.1))) := by
  have h := batchRemoveAux_collectExpired now m.accounts [] 0
  simp only [List.nil_append, List.length_nil, Nat.zero_add] at h
  unfold AccountManager.refresh_all
  by_cases hE : (collectExpired now m.accounts 0).isEmpty
  · simp [hE, AccountManager.update_index, h]
  · simp [hE, AccountManager.update_index, h]

/-- **C2**: `refresh_all` removes exactly the expired unverified accounts
and sweeps the verified ones: the resulting account vector is the original
one filtered of expired unverified accounts, with every survivor swept
(`Tokens::refresh` plus reset of an expired `ForgetPassword` state); the
index is rebuilt from the filtered vector exactly when the removal list
was non-empty; the position-offset removal `w.remove(*i.1 - i.0)` deletes
the elements at exactly the listed positions for every strictly ascending
in-bounds removal list; and an unverified account whose context has not
expired survives the sweep. -/
theorem refresh_all_correct (m : AccountManager) (now : Int) :
    ((m.refresh_all now).accounts
        = (m.accounts.filter (fun a => ! isExpiredUnverified now a)).map
            (refreshVerified now))
    ∧ ((m.refresh_all now).index
        = if (collectExpired now m.accounts 0).isEmpty then m.index
          else ((m.accounts.filter
              (fun a => ! isExpiredUnverified now a)).enum.map
            (fun p => (p.2.id, p.1))))
    ∧ (∀ (l : List Account) (rm : List Nat), rm.Pairwise (· < ·) →
        (∀ i ∈ rm, i < l.length) →
        batchRemoveAux l rm 0 = dropAbs l rm 0)
    ∧ (∀ cxt : VerifyContext, Account.Unverified cxt ∈ m.accounts →
        cxt.is_expired now = false →
        Account.Unverified cxt ∈ (m.refresh_all now).accounts) := by
  refine ⟨refresh_all_accounts_eq m now, refresh_all_index_eq m now, ?_, ?_⟩
  · intro l rm hp hb
    have h := batchRemoveAux_eq_dropAbs l [] 0 rm hp
      (by intro i hi; have := hb i hi; simp; omega)
    simpa using h
  · intro cxt hmem hexp
    rw [refresh_all_accounts_eq m now]
    have h1 : Account.Unverified cxt
        ∈ m.accounts.filter (fun a => ! isExpiredUnverified now a) := by
      rw [List.mem_filter]
      exact ⟨hmem, by simp [isExpiredUnverified, hexp]⟩
    have h2 : refreshVerified now (Account.Unverified cxt)
        = Account.Unverified cxt := rfl
    exact h2 ▸ List.mem_map_of_mem (refreshVerified now) h1

/-- Witness for C2 at the sample manager at `now = 900` (the unverified
context of `sampleCxt` expires exactly then, the verified account stays). -/
theorem refresh_all_correct_witness :
    (AccountManager.refresh_all sampleManager 900).accounts
        = [sampleVerified]
    ∧ batchRemoveAux ([.Unverified sampleCxt, sampleVerified] :
          List Account) [0] 0 = dropAbs [.Unverified sampleCxt,
          sampleVerified] [0] 0
    ∧ Account.Unverified sampleCxt
        ∈ (AccountManager.refresh_all sampleManager 0).accounts := by
  refine ⟨?_, ?_, ?_⟩
  · have h := (refresh_all_correct sampleManager 900).1
    rw [h]; decide
  · exact (refresh_all_correct sampleManager 900).2.2.1
      [.Unverified sampleCxt, sampleVerified] [0] (by decide) (by decide)
  · exact (refresh_all_correct sampleManager 0).2.2.2 sampleCxt (by decide)
      (by decide)

/-- **C1**: a successful `Account::new` yields an account whose `id()` is
the 64-bit hash of the registration email, and a successful `activate`
whose supplied attributes carry the same email yields a verified account
with that same id — activation does not change identity. -/
theorem register_activate_id_stable (email : String) (r : Nat) (now : Int)
    (acc : Account) (h : Account.new email r now = .ok acc) :
    acc.id = hash64 email
    ∧ ∀ (code : Nat) (attrs : UserAttributes), attrs.email = email →
        (acc.verify code (.Activate attrs)).1 = .ok () →
        ((acc.verify code (.Activate attrs)).2).id = hash64 email := by
  unfold Account.new at h
  by_cases hd : emailDomain email ∈ DOMAINS
  · rw [if_pos hd] at h
    injection h with h
    subst h
    refine ⟨rfl, ?_⟩
    intro code attrs hae hok
    unfold Account.verify at hok ⊢
    by_cases hc : gen_range_code r ≠ code
    · simp [hc] at hok
    · simp only [hc, if_neg, not_false_iff, if_false]
      simp [Account.id, hae]
  · rw [if_neg hd] at h
    exact absurd h (by simp)

/-- Witness for C1: the concrete registration of `a@pkuschool.edu.cn` with
raw random value 23456 and clock 0 gets id `hash64 "a@pkuschool.edu.cn"`,
before and after activation with `sampleAttrs`. -/
theorem register_activate_id_stable_witness :
    (Account.Unverified sampleCxt).id = hash64 "a@pkuschool.edu.cn"
    ∧ ((Account.Unverified sampleCxt).verify 123456
          (.Activate sampleAttrs)).2.id = hash64 "a@pkuschool.edu.cn" := by
  have h := register_activate_id_stable "a@pkuschool.edu.cn" 23456 0
    (.Unverified sampleCxt) (by decide)
  exact ⟨h.1, h.2 123456 sampleAttrs (by decide) (by decide)⟩

/-- **C10**: `activate` never compares the supplied attribute email with
the registration email: with the stored code it succeeds for any
attributes, the post-state is `Verified` with id `hash64 attrs.email`, a
fresh empty token set and `verify = None`; and whenever the two emails
hash differently the id after activation differs from the id before. -/
theorem activate_ignores_attribute_email (cxt : VerifyContext)
    (attrs : UserAttributes) :
    ((Account.Unverified cxt).verify cxt.code (.Activate attrs)).1 = .ok ()
    ∧ ((Account.Unverified cxt).verify cxt.code (.Activate attrs)).2
        = .Verified (hash64 attrs.email) attrs Tokens.new
            UserVerifyVariant.none
    ∧ (hash64 attrs.email ≠ hash64 cxt.email →
        ((Account.Unverified cxt).verify cxt.code (.Activate attrs)).2.id
          ≠ (Account.Unverified cxt).id) := by
  refine ⟨by simp [Account.verify], by simp [Account.verify], ?_⟩
  intro hne
  simp [Account.verify, Account.id, hne]

/-- Witness for C10: activating `sampleCxt` (email `a@pkuschool.edu.cn`)
with attributes carrying `b@i.pkuschool.edu.cn` succeeds and changes the
account's id. -/
theorem activate_ignores_attribute_email_witness :
    ((Account.Unverified sampleCxt).verify 123456
        (.Activate sampleAttrsB)).1 = .ok ()
    ∧ ((Account.Unverified sampleCxt).verify 123456
        (.Activate sampleAttrsB)).2.id
        ≠ (Account.Unverified sampleCxt).id := by
  have h := activate_ignores_attribute_email sampleCxt sampleAttrsB
  exact ⟨h.1, h.2.2 (by decide)⟩

/-- **C3**: over every account operation, a verified account stays
verified, and an unverified account becomes verified exactly when the
operation is a successful `activate`. -/
theorem verified_transition_monotone (a : Account) (op : AccountOp) :
    (a.isVerified = true → (applyOp a op).isVerified = true)
    ∧ (a.isVerified = false →
        ((applyOp a op).isVerified = true ↔
          ∃ (c : Nat) (attrs : UserAttributes),
            op = .activate c attrs ∧ opSucceeds a op = true)) := by
  cases a with
  | Unverified cxt =>
    refine ⟨by simp [Account.isVerified], fun _ => ?_⟩
    cases op with
    | activate c attrs =>
      by_cases hc : cxt.code ≠ c
      · simp [applyOp, opSucceeds, Account.verify, Account.isVerified,
          exceptOk, hc]
      · simp [applyOp, opSucceeds, Account.verify, Account.isVerified,
          exceptOk, hc]
    | resetPassword c pw =>
      simp [applyOp, opSucceeds, Account.verify, Account.isVerified]
    | accountLogin pw fresh now =>
      simp [applyOp, opSucceeds, Account.login, Account.isVerified]
    | accountLogout tok =>
      simp [applyOp, opSucceeds, Account.logout, Account.isVerified]
    | readMetadata => simp [applyOp, Account.isVerified]
    | readPermissions => simp [applyOp, Account.isVerified]
  | Verified id attrs toks vf =>
    refine ⟨fun _ => ?_, by simp [Account.isVerified]⟩
    cases op with
    | activate c attrs2 =>
      simp [applyOp, Account.verify, Account.isVerified]
    | resetPassword c pw =>
      cases vf with
      | none => simp [applyOp, Account.verify, Account.isVerified]
      | forgetPassword cxt =>
        by_cases hc : cxt.code ≠ c
        · simp [applyOp, Account.verify, Account.isVerified, hc]
        · simp [applyOp, Account.verify, Account.isVerified, hc]
    | accountLogin pw fresh now =>
      by_cases hp : digest pw = attrs.password_sha
      · simp [applyOp, Account.login, Account.isVerified, hp]
      · simp [applyOp, Account.login, Account.isVerified, hp]
    | accountLogout tok =>
      by_cases ht : (toks.remove tok).1
      · simp [applyOp, Account.logout, Account.isVerified, ht]
      · simp [applyOp, Account.logout, Account.isVerified, ht]
    | readMetadata => simp [applyOp, Account.isVerified]
    | readPermissions => simp [applyOp, Account.isVerified]

/-- Witness for C3: the sample verified account stays verified under
`logout`, and the sample unverified account becomes verified exactly via
the successful activate with the stored code. -/
theorem verified_transition_monotone_witness :
    (applyOp sampleVerified (.accountLogout "t")).isVerified = true
    ∧ (applyOp (.Unverified sampleCxt)
        (.activate 123456 sampleAttrs)).isVerified = true := by
  refine ⟨(verified_transition_monotone sampleVerified
    (.accountLogout "t")).1 (by decide), ?_⟩
  exact ((verified_transition_monotone (.Unverified sampleCxt)
      (.activate 123456 sampleAttrs)).2 (by decide)).2
    ⟨123456, sampleAttrs, rfl, by decide⟩

/-- **C4**: `activate` with a wrong code fails `VerificationCode` and
leaves the unverified account (context, code, expiry) unchanged; on an
already verified account it fails `UserRegistered` and leaves the account
unchanged. -/
theorem activate_failure_unchanged (cxt : VerifyContext) (code : Nat)
    (attrs : UserAttributes) (id : Nat) (attrs0 : UserAttributes)
    (tokens : Tokens) (vf : UserVerifyVariant) (h : code ≠ cxt.code) :
    (Account.Unverified cxt).verify code (.Activate attrs)
      = (.error .VerificationCode, .Unverified cxt)
    ∧ (Account.Verified id attrs0 tokens vf).verify code (.Activate attrs)
      = (.error .UserRegistered, .Verified id attrs0 tokens vf) := by
  have h' : cxt.code ≠ code := fun e => h e.symm
  exact ⟨by simp [Account.verify, h'], by simp [Account.verify]⟩

/-- Witness for C4 at the sample context with the wrong code 111111. -/
theorem activate_failure_unchanged_witness :
    (Account.Unverified sampleCxt).verify 111111 (.Activate sampleAttrs)
      = (.error .VerificationCode, .Unverified sampleCxt)
    ∧ sampleVerified.verify 111111 (.Activate sampleAttrs)
      = (.error .UserRegistered, sampleVerified) :=
  activate_failure_unchanged sampleCxt 111111 sampleAttrs
    (hash64 "b@i.pkuschool.edu.cn") sampleAttrsB Tokens.new
    UserVerifyVariant.none (by decide)

/-- **C5**: `reset_password` fails `PermissionDenied` from Verified with
`verify = None`, `UserUnverified` from Unverified, `VerificationCode` on a
code mismatch (each leaving the account unchanged), and on the matching
code stores `digest(new_password)` and resets `verify` to `None`. -/
theorem reset_password_correct (id : Nat) (attrs : UserAttributes)
    (tokens : Tokens) (cxt ucxt : VerifyContext) (code : Nat)
    (pw : String) :
    ((Account.Verified id attrs tokens UserVerifyVariant.none).verify code
        (.ResetPassword pw)
      = (.error .PermissionDenied,
          .Verified id attrs tokens UserVerifyVariant.none))
    ∧ ((Account.Unverified ucxt).verify code (.ResetPassword pw)
        = (.error .UserUnverified, .Unverified ucxt))
    ∧ (code ≠ cxt.code →
        (Account.Verified id attrs tokens (.forgetPassword cxt)).verify
            code (.ResetPassword pw)
          = (.error .VerificationCode,
              .Verified id attrs tokens (.forgetPassword cxt)))
    ∧ ((Account.Verified id attrs tokens (.forgetPassword cxt)).verify
          cxt.code (.ResetPassword pw)
        = (.ok (), .Verified id
            { attrs with password_sha := digest pw } tokens
            UserVerifyVariant.none)) := by
  refine ⟨by simp [Account.verify], by simp [Account.verify], ?_, ?_⟩
  · intro h
    have h' : cxt.code ≠ code := fun e => h e.symm
    simp [Account.verify, h']
  · simp [Account.verify]

/-- Witness for C5 at the sample data with mismatching code 111111 and
matching code 123456. -/
theorem reset_password_correct_witness :
    ((Account.Verified 7 sampleAttrs Tokens.new
        (.forgetPassword sampleCxt)).verify 111111
        (.ResetPassword "npw")
      = (.error .VerificationCode,
          .Verified 7 sampleAttrs Tokens.new (.forgetPassword sampleCxt)))
    ∧ ((Account.Verified 7 sampleAttrs Tokens.new
        (.forgetPassword sampleCxt)).verify 123456
        (.ResetPassword "npw")
      = (.ok (), .Verified 7
          { sampleAttrs with password_sha := digest "npw" } Tokens.new
          UserVerifyVariant.none)) := by
  have h := reset_password_correct 7 sampleAttrs Tokens.new sampleCxt
    sampleCxt 111111 "npw"
  exact ⟨h.2.2.1 (by decide), h.2.2.2⟩

theorem filter_ne_any_eq_false (l : List TokenRecord) (t : String) :
    (l.filter (fun r => r.token ≠ t)).any (fun r => r.token = t)
      = false := by
  rw [List.any_eq_false]
  intro r hr
  have := (List.mem_filter.mp hr).2
  simpa using this

/-- **C6**: on a verified account with the right password, `login` returns
the freshly generated token; the first `logout` with that token succeeds
and the second fails `TokenIncorrect`; `logout` on an unverified account
fails `UserUnverified`. -/
theorem login_logout_exactly_once (id : Nat) (attrs : UserAttributes)
    (tokens : Tokens) (vf : UserVerifyVariant) (pw fresh : String)
    (now : Int) (cxt : VerifyContext) (tok : String)
    (hpw : digest pw = attrs.password_sha) :
    ((Account.Verified id attrs tokens vf).login pw fresh now).1
        = .ok fresh
    ∧ ((((Account.Verified id attrs tokens vf).login pw fresh now).2).logout
        fresh).1 = .ok ()
    ∧ (((((Account.Verified id attrs tokens vf).login pw fresh
        now).2).logout fresh).2.logout fresh).1 = .error .TokenIncorrect
    ∧ ((Account.Unverified cxt).logout tok).1 = .error .UserUnverified := by
  refine ⟨by simp [Account.login, Tokens.new_token, hpw], ?_, ?_,
    by simp [Account.logout]⟩
  · simp [Account.login, Tokens.new_token, hpw, Account.logout,
      Tokens.remove]
  · simp [Account.login, Tokens.new_token, hpw, Account.logout,
      Tokens.remove, List.filter_cons, filter_ne_any_eq_false]

/-- Witness for C6: concrete login of the sample verified account with
password `pw` and fresh token `T`, then logging out twice. -/
theorem login_logout_exactly_once_witness :
    ((sampleVerified.login "pw" "T" 0).1 = .ok "T")
    ∧ (((sampleVerified.login "pw" "T" 0).2.logout "T").1 = .ok ())
    ∧ ((((sampleVerified.login "pw" "T" 0).2.logout "T").2.logout "T").1
        = .error .TokenIncorrect) := by
  have h := login_logout_exactly_once (hash64 "b@i.pkuschool.edu.cn")
    sampleAttrsB Tokens.new UserVerifyVariant.none "pw" "T" 0 sampleCxt
    "T" (by decide)
  exact ⟨h.1, h.2.1, h.2.2.1⟩

/-- Counterexample for C7: the error-to-status mapping is not injective —
`VerificationCode` and `UserUnverified` are distinct variants that both
map to 403 FORBIDDEN. -/
theorem response_code_not_injective :
    Error.VerificationCode.response_code
        = Error.UserUnverified.response_code
    ∧ Error.VerificationCode ≠ Error.UserUnverified := by
  exact ⟨rfl, by decide⟩

/-- **C7 (amended)**: the caller-facing status mapping distinguishes only
three statuses: `MailSend` ↦ 500, `Conflict` ↦ 409, store-level
`NotFound` ↦ 404; every other `Error` variant maps to 403, and a wrapped
`Account` error keeps its inner code — so the mapping is not 1:1 on error
kinds. -/
theorem response_code_classification :
    (∀ e : Error, e ≠ .MailSend → e ≠ .Conflict →
      e.response_code = 403)
    ∧ Error.MailSend.response_code = 500
    ∧ Error.Conflict.response_code = 409
    ∧ (∀ id : Nat, (ManagerError.NotFound id).response_code = 404)
    ∧ (∀ (id : Nat) (e : Error),
        (ManagerError.Account id e).response_code = e.response_code) := by
  refine ⟨?_, rfl, rfl, fun _ => rfl, fun _ _ => rfl⟩
  intro e h1 h2
  cases e <;> first | rfl | exact absurd rfl h1 | exact absurd rfl h2

/-- Witness for C7 (amended) at `PasswordIncorrect` and id 3. -/
theorem response_code_classification_witness :
    Error.PasswordIncorrect.response_code = 403
    ∧ (ManagerError.NotFound 3).response_code = 404 := by
  exact ⟨response_code_classification.1 .PasswordIncorrect (by decide)
    (by decide), response_code_classification.2.2.2.1 3⟩

/-- **C8**: `Account::new` rejects every email whose domain is outside the
institutional allowlist with `EmailDomainNotInSchool` (constructing
nothing), and for an allowed domain returns the unverified account built
around the fresh verification context. -/
theorem register_domain_allowlist (email : String) (r : Nat) (now : Int) :
    (emailDomain email ∉ DOMAINS →
      Account.new email r now = .error .EmailDomainNotInSchool)
    ∧ (emailDomain email ∈ DOMAINS →
      Account.new email r now = .ok (.Unverified
        { email := email, code := gen_range_code r,
          expire_time := now + 900 })) := by
  constructor <;> intro h <;> simp [Account.new, h]

/-- Witness for C8: `user@gmail.com` is rejected and
`a@pkuschool.edu.cn` is accepted. -/
theorem register_domain_allowlist_witness :
    Account.new "user@gmail.com" 23456 0
        = .error .EmailDomainNotInSchool
    ∧ Account.new "a@pkuschool.edu.cn" 23456 0
        = .ok (.Unverified
          { email := "a@pkuschool.edu.cn", code := gen_range_code 23456,
            expire_time := 900 }) := by
  exact ⟨(register_domain_allowlist "user@gmail.com" 23456 0).1
      (by decide),
    (register_domain_allowlist "a@pkuschool.edu.cn" 23456 0).2
      (by decide)⟩

/-- Counterexample for C9: the claimed top value 999999 is impossible —
`gen_range(100000..999999)` is a half-open range, so no execution of
`Account::new` produces the code 999999. -/
theorem code_999999_impossible :
    ¬ ∃ (r : Nat) (now : Int) (cxt : VerifyContext),
        Account.new "a@pkuschool.edu.cn" r now
            = .ok (.Unverified cxt)
        ∧ cxt.code = 999999 := by
  rintro ⟨r, now, cxt, h, hc⟩
  have hd : emailDomain "a@pkuschool.edu.cn" ∈ DOMAINS := by decide
  rw [Account.new, if_pos hd] at h
  injection h with h
  injection h with h
  have : cxt.code = gen_range_code r := by rw [← h]
  have hlt : r % 899999 < 899999 := Nat.mod_lt r (by omega)
  rw [hc] at this
  unfold gen_range_code at this
  omega

/-- **C9 (amended)**: every successful `Account::new` draws its code from
the half-open range `[100000, 999999)` — that is, `100000 ≤ code ≤
999998` — every value of that range is attainable by some random draw,
and the context's expiry is exactly 15 minutes (900 s) after creation. -/
theorem verification_code_range (email : String) (r : Nat) (now : Int)
    (cxt : VerifyContext)
    (h : Account.new email r now = .ok (.Unverified cxt)) :
    100000 ≤ cxt.code ∧ cxt.code ≤ 999998
    ∧ cxt.expire_time = now + 900
    ∧ ∀ v : Nat, 100000 ≤ v → v ≤ 999998 →
        ∃ (r2 : Nat) (cxt2 : VerifyContext),
          Account.new email r2 now = .ok (.Unverified cxt2)
          ∧ cxt2.code = v := by
  by_cases hd : emailDomain email ∈ DOMAINS
  · rw [Account.new, if_pos hd] at h
    injection h with h
    injection h with h
    have hco : cxt.code = gen_range_code r := by rw [← h]
    have hex : cxt.expire_time = now + 900 := by rw [← h]
    have hlt : r % 899999 < 899999 := Nat.mod_lt r (by omega)
    refine ⟨?_, ?_, hex, ?_⟩
    · rw [hco]; unfold gen_range_code; omega
    · rw [hco]; unfold gen_range_code; omega
    · intro v hv1 hv2
      refine ⟨v - 100000,
        { email := email
          code := gen_range_code (v - 100000)
          expire_time := now + 900 }, ?_, ?_⟩
      · rw [Account.new, if_pos hd]
      · show gen_range_code (v - 100000) = v
        unfold gen_range_code
        rw [Nat.mod_eq_of_lt (by omega)]
        omega
  · rw [Account.new, if_neg hd] at h
    exact absurd h (by simp)

/-- Witness for C9 (amended) at the concrete registration of
`a@pkuschool.edu.cn` with raw random value 23456 at time 0. -/
theorem verification_code_range_witness :
    100000 ≤ sampleCxt.code ∧ sampleCxt.code ≤ 999998
    ∧ sampleCxt.expire_time = (0 : Int) + 900 := by
  have h := verification_code_range "a@pkuschool.edu.cn" 23456 0
    sampleCxt (by decide)
  exact ⟨h.1, h.2.1, h.2.2.1⟩

end Sms3
